import Mathlib

/-!
Verification of the photo-repository data-access layer (`src/lib/photos.ts`)
of a photo-journal gallery backed by a hosted row store and object store.

The repository functions (`cleanMetadata`, `sanitizeFilename`,
`fetchPublicPhotos`, `fetchAdminPhotos`, `uploadPhoto`, `updatePhotoMetadata`,
`softDeletePhoto`, `restorePhoto`, `permanentlyDeletePhoto`) are translated
directly from the TypeScript source.  The remote backend (row filtering,
ordering, range pagination, `.single()`, the `updated_at` trigger from the
SQL migration, and object-storage upload/remove) is modelled as an explicit
`Backend` state with injectable failures at the points the source handles.
-/

namespace PhotoRepo

/-- Whitespace as recognised by JavaScript `String.prototype.trim`
(restricted to the ASCII whitespace characters). -/
def jsIsSpace (c : Char) : Bool :=
  c == ' ' || c == '\t' || c == '\n' || c == '\r' || c.toNat == 11 || c.toNat == 12

/-- JavaScript `String.prototype.trim`: drop whitespace from both ends. -/
def jsTrim (s : String) : String :=
  ⟨((s.data.dropWhile jsIsSpace).reverse.dropWhile jsIsSpace).reverse⟩

/-- JavaScript `String.prototype.toLowerCase` (ASCII range). -/
def jsToLower (s : String) : String :=
  ⟨s.data.map Char.toLower⟩

/-- Metadata as entered in the admin form (`PhotoMetadataInput` in
`types/photo.ts`); `shot_date` is abstracted to a comparable ordinal. -/
structure PhotoMetadataInput where
  title : String
  caption : String
  tags : List String
  shot_date : Nat
deriving DecidableEq, Repr

/-- The normalized metadata object produced by `cleanMetadata`. -/
structure CleanPayload where
  title : String
  caption : Option String
  tags : List String
  shot_date : Nat
deriving DecidableEq, Repr

/-- `cleanMetadata` from `photos.ts`: trim the title, null out an
empty-after-trim caption, trim each tag and drop falsy (empty) ones,
pass `shot_date` through. -/
def cleanMetadata (metadata : PhotoMetadataInput) : CleanPayload :=
  { title := jsTrim metadata.title
    caption := if jsTrim metadata.caption ≠ "" then some (jsTrim metadata.caption) else none
    tags := (metadata.tags.map jsTrim).filter (fun t => t ≠ "")
    shot_date := metadata.shot_date }

/-- Characters inside the regex class `[a-z0-9.\-_]` of `sanitizeFilename`. -/
def allowedChar (c : Char) : Bool :=
  (97 ≤ c.toNat && c.toNat ≤ 122) || (48 ≤ c.toNat && c.toNat ≤ 57) ||
    c == '.' || c == '-' || c == '_'

/-- The action of `.replace(/[^a-z0-9.\-_]+/g, '-')`: each maximal run of
characters outside the class is one match, replaced by a single hyphen.
The boolean tracks whether the previous character belonged to such a run. -/
def sanitizeAux : Bool → List Char → List Char
  | _, [] => []
  | inRun, c :: rest =>
    if allowedChar c then c :: sanitizeAux false rest
    else if inRun then sanitizeAux true rest
    else '-' :: sanitizeAux true rest

/-- Run-collapsing replacement over a whole character list. -/
def sanitizeChars (l : List Char) : List Char := sanitizeAux false l

/-- `sanitizeFilename` from `photos.ts`:
`filename.toLowerCase().replace(/[^a-z0-9.\-_]+/g, '-')`. -/
def sanitizeFilename (filename : String) : String :=
  ⟨sanitizeChars (jsToLower filename).data⟩

/-- A stored row of the `photos` table (`PhotoRow` in `photos.ts`, columns as
in the migration); dates and timestamps are abstracted to comparable
ordinals, ids to naturals. -/
structure PhotoRow where
  id : Nat
  title : String
  caption : Option String
  tags : List String
  shot_date : Nat
  image_path : String
  created_at : Nat
  updated_at : Nat
  deleted_at : Option Nat
deriving DecidableEq, Repr

/-- Modelled from the spec: the remote data store reachable through the
access client — the `photos` rows, the set of object-store keys of the
`photos` bucket, server counters for fresh ids/timestamps, and fault
switches for the failure-injection points the repository handles
(storage upload, row insert, storage remove, row delete). -/
structure Backend where
  rows : List PhotoRow
  objects : List String
  nextId : Nat
  now : Nat
  uploadFails : Bool
  insertFails : Bool
  removeFailMsg : Option String
  rowDeleteFails : Bool
deriving DecidableEq, Repr

/-- Modelled from the spec: `storage.from(bucket).upload(key, file, {upsert:
false})` — fails on an injected fault or when the key already exists
(uploads never overwrite), otherwise records the object. -/
def storageUpload (b : Backend) (key : String) : Except String Backend :=
  if b.uploadFails then .error "storage upload failed"
  else if key ∈ b.objects then .error "The resource already exists"
  else .ok { b with objects := key :: b.objects }

/-- Modelled from the spec: `storage.from(bucket).remove([key])` — an
injected fault surfaces its message; removing a missing object reports a
not-found condition; otherwise the object is removed. -/
def storageRemove (b : Backend) (key : String) : Except String Backend :=
  match b.removeFailMsg with
  | some msg => .error msg
  | none =>
    if key ∈ b.objects then .ok { b with objects := b.objects.erase key }
    else .error "Object not found"

/-- Modelled from the spec: inserting a row into `photos` — the server
assigns `id`, `created_at`, `updated_at` and a null `deleted_at`. -/
def insertPhoto (b : Backend) (payload : CleanPayload) (path : String) :
    Except String (Backend × PhotoRow) :=
  if b.insertFails then .error "row insert failed"
  else
    let row : PhotoRow :=
      { id := b.nextId, title := payload.title, caption := payload.caption
        tags := payload.tags, shot_date := payload.shot_date, image_path := path
        created_at := b.now, updated_at := b.now, deleted_at := none }
    .ok ({ b with rows := b.rows ++ [row], nextId := b.nextId + 1 }, row)

/-- The descending (`shot_date` desc, then `created_at` desc) order issued by
the two `.order(...)` calls of the read queries. -/
def photoOrder (a c : PhotoRow) : Prop :=
  c.shot_date < a.shot_date ∨ (c.shot_date = a.shot_date ∧ c.created_at ≤ a.created_at)

instance : DecidableRel photoOrder := fun a c =>
  inferInstanceAs (Decidable
    (c.shot_date < a.shot_date ∨ (c.shot_date = a.shot_date ∧ c.created_at ≤ a.created_at)))

instance : IsTotal PhotoRow photoOrder :=
  ⟨fun a c => by unfold photoOrder; omega⟩

instance : IsTrans PhotoRow photoOrder :=
  ⟨fun a c e h1 h2 => by unfold photoOrder at *; omega⟩

/-- Modelled from the spec: the server sorts the selected rows by
`shot_date` descending, ties broken by `created_at` descending. -/
def orderRows (rows : List PhotoRow) : List PhotoRow :=
  rows.insertionSort photoOrder

/-- `fetchPublicPhotos(from, to)` from `photos.ts`: select rows with
`deleted_at is null`, order by `shot_date` desc then `created_at` desc,
and return the inclusive index range `[from, to]` of that ordering. -/
def fetchPublicPhotos (b : Backend) (f t : Nat) : List PhotoRow :=
  (((orderRows (b.rows.filter (fun r => r.deleted_at = none))).drop f).take (t + 1 - f))

/-- The `mode` argument of `fetchAdminPhotos`. -/
inductive AdminMode where
  | active
  | trash
deriving DecidableEq, Repr

/-- `fetchAdminPhotos(mode)` from `photos.ts`: same ordering, filtered to
`deleted_at is null` for `active` and `deleted_at is not null` for `trash`,
with no range. -/
def fetchAdminPhotos (b : Backend) (mode : AdminMode) : List PhotoRow :=
  orderRows (b.rows.filter (fun r =>
    match mode with
    | .active => r.deleted_at = none
    | .trash => r.deleted_at ≠ none))

/-- The storage key `{userId}/{Date.now()}-{crypto.randomUUID()}-{sanitized
filename}` generated by `uploadPhoto`; the timestamp and random token are
inputs, rendered as strings. -/
def makeFilePath (userId tsStr uuid fileName : String) : String :=
  userId ++ "/" ++ tsStr ++ "-" ++ uuid ++ "-" ++ sanitizeFilename fileName

/-- `uploadPhoto` from `photos.ts`: upload the file to the generated key;
on upload failure throw at once; otherwise insert a row with the cleaned
metadata and the key; on insert failure remove the just-uploaded object
(its own outcome is ignored) and rethrow the insert error. -/
def uploadPhoto (b : Backend) (fileName : String) (metadata : PhotoMetadataInput)
    (userId tsStr uuid : String) : Backend × Except String PhotoRow :=
  let filePath := makeFilePath userId tsStr uuid fileName
  match storageUpload b filePath with
  | .error e => (b, .error e)
  | .ok b1 =>
    match insertPhoto b1 (cleanMetadata metadata) filePath with
    | .ok (b2, row) => (b2, .ok row)
    | .error e =>
      match storageRemove b1 filePath with
      | .ok b2 => (b2, .error e)
      | .error _ => (b1, .error e)

/-- The row mutation of `updatePhotoMetadata`: set the four metadata columns
on every row matched by `.eq('id', photoId)`; the migration's
`touch_updated_at` trigger refreshes `updated_at` on each updated row. -/
def applyMetaUpdate (rows : List PhotoRow) (photoId : Nat) (payload : CleanPayload)
    (now : Nat) : List PhotoRow :=
  rows.map (fun r =>
    if r.id = photoId then
      { r with title := payload.title, caption := payload.caption
               tags := payload.tags, shot_date := payload.shot_date
               updated_at := now }
    else r)

/-- `updatePhotoMetadata(photoId, metadata)` from `photos.ts`: clean the
metadata, update the matched row, and return it via `.single()`, which
errors unless exactly one row comes back. -/
def updatePhotoMetadata (b : Backend) (photoId : Nat) (metadata : PhotoMetadataInput) :
    Backend × Except String PhotoRow :=
  match (applyMetaUpdate b.rows photoId (cleanMetadata metadata) b.now).filter
      (fun r => r.id = photoId) with
  | [row] =>
    ({ b with rows := applyMetaUpdate b.rows photoId (cleanMetadata metadata) b.now }, .ok row)
  | _ =>
    ({ b with rows := applyMetaUpdate b.rows photoId (cleanMetadata metadata) b.now },
     .error "Cannot coerce the result to a single JSON object")

/-- `softDeletePhoto(photoId)` from `photos.ts`: set `deleted_at` to the
current time on every matched row (the trigger refreshes `updated_at`);
an update matching zero rows is not an error. -/
def softDeletePhoto (b : Backend) (photoId : Nat) : Backend × Except String Unit :=
  ({ b with rows := b.rows.map (fun r =>
      if r.id = photoId then { r with deleted_at := some b.now, updated_at := b.now }
      else r) },
   .ok ())

/-- `restorePhoto(photoId)` from `photos.ts`: set `deleted_at` to null on
every matched row (the trigger refreshes `updated_at`). -/
def restorePhoto (b : Backend) (photoId : Nat) : Backend × Except String Unit :=
  ({ b with rows := b.rows.map (fun r =>
      if r.id = photoId then { r with deleted_at := none, updated_at := b.now }
      else r) },
   .ok ())

/-- The test `/not found/i.test(msg)`: does the message contain the
substring "not found", case-insensitively? -/
def charPrefixOf : List Char → List Char → Bool
  | [], _ => true
  | _ :: _, [] => false
  | a :: as, c :: cs => a == c && charPrefixOf as cs

/-- Substring search used to model the case-insensitive regex test. -/
def charInfixOf (needle : List Char) : List Char → Bool
  | [] => charPrefixOf needle []
  | c :: rest => charPrefixOf needle (c :: rest) || charInfixOf needle rest

/-- `/not found/i.test(msg)` from `permanentlyDeletePhoto`. -/
def testNotFound (msg : String) : Bool :=
  charInfixOf "not found".data (jsToLower msg).data

/-- The row-delete phase of `permanentlyDeletePhoto`:
`.from('photos').delete().eq('id', id)`, with an injectable fault. -/
def rowDeletePhase (b : Backend) (photoId : Nat) : Backend × Except String Unit :=
  if b.rowDeleteFails then (b, .error "row delete failed")
  else ({ b with rows := b.rows.filter (fun r => r.id ≠ photoId) }, .ok ())

/-- `permanentlyDeletePhoto(photo)` from `photos.ts`: remove the object at
`photo.image_path`; a storage failure whose message does not match
`/not found/i` is thrown and the row delete is never attempted; otherwise
delete the row by id, throwing any row-delete failure. -/
def permanentlyDeletePhoto (b : Backend) (photo : PhotoRow) : Backend × Except String Unit :=
  match storageRemove b photo.image_path with
  | .error msg =>
    if testNotFound msg then rowDeletePhase b photo.id
    else (b, .error msg)
  | .ok b1 => rowDeletePhase b1 photo.id

/-- `listPublic(offset, limit)` of the specification, as realised by the
caller (`HomePage`): page `offset` and size `limit` become the inclusive
range `[offset, offset + limit - 1]` passed to `fetchPublicPhotos`. -/
def listPublic (b : Backend) (offset limit : Nat) : List PhotoRow :=
  fetchPublicPhotos b offset (offset + limit - 1)

/-- Two rows with distinct (`shot_date`, `created_at`) pairs. -/
def photoKeyNe (a c : PhotoRow) : Prop :=
  (a.shot_date, a.created_at) ≠ (c.shot_date, c.created_at)

instance : DecidableRel photoKeyNe := fun a c =>
  inferInstanceAs (Decidable ((a.shot_date, a.created_at) ≠ (c.shot_date, c.created_at)))

/-- Strictly descending: later rows have strictly smaller
(`shot_date`, `created_at`) in the descending lexicographic order. -/
def photoStrictDesc (a c : PhotoRow) : Prop :=
  c.shot_date < a.shot_date ∨ (c.shot_date = a.shot_date ∧ c.created_at < a.created_at)

instance : DecidableRel photoStrictDesc := fun a c =>
  inferInstanceAs (Decidable
    (c.shot_date < a.shot_date ∨ (c.shot_date = a.shot_date ∧ c.created_at < a.created_at)))

/-- Witness backend: three rows, one trashed, distinct sort keys. -/
def wBackend : Backend :=
  { rows :=
      [⟨1, "a", none, [], 5, "u/p1", 10, 10, none⟩,
       ⟨2, "b", none, [], 5, "u/p2", 8, 8, none⟩,
       ⟨3, "c", none, [], 7, "u/p3", 1, 1, some 4⟩]
    objects := ["u/p1", "u/p2", "u/p3"]
    nextId := 4, now := 20
    uploadFails := false, insertFails := false
    removeFailMsg := none, rowDeleteFails := false }

/-! ### Helper lemmas -/

/-- A string with no whitespace at either end. -/
def trimmedShape (s : String) : Prop :=
  (∀ c, s.data.head? = some c → jsIsSpace c = false) ∧
  (∀ c, s.data.getLast? = some c → jsIsSpace c = false)

lemma head?_dropWhile_not {α : Type} (p : α → Bool) (l : List α) (c : α)
    (h : (l.dropWhile p).head? = some c) : p c = false := by
  induction l with
  | nil => simp [List.dropWhile] at h
  | cons a as ih =>
    rw [List.dropWhile_cons] at h
    by_cases ha : p a
    · rw [if_pos ha] at h
      exact ih h
    · rw [if_neg ha] at h
      simp only [List.head?_cons, Option.some.injEq] at h
      cases h
      simpa using ha

lemma getLast?_dropWhile_some {α : Type} (p : α → Bool) (l : List α) (c : α)
    (h : (l.dropWhile p).getLast? = some c) : l.getLast? = some c := by
  obtain ⟨t, ht⟩ := List.dropWhile_suffix p (l := l)
  rw [← ht]
  have hne : l.dropWhile p ≠ [] := by
    intro hnil
    rw [hnil] at h
    simp at h
  rw [List.getLast?_append]
  rw [h]
  rfl

lemma jsTrim_trimmedShape (s : String) : trimmedShape (jsTrim s) := by
  constructor
  · intro c hc
    unfold jsTrim at hc
    rw [List.head?_reverse] at hc
    have h1 := getLast?_dropWhile_some jsIsSpace ((s.data.dropWhile jsIsSpace).reverse) c hc
    rw [List.getLast?_reverse] at h1
    exact head?_dropWhile_not jsIsSpace _ c h1
  · intro c hc
    unfold jsTrim at hc
    rw [List.getLast?_reverse] at hc
    exact head?_dropWhile_not jsIsSpace _ c hc

/-! ### C1: metadata normalization -/

/-- C1: `cleanMetadata` (used by both create and update) trims the title of
surrounding whitespace, turns an empty-or-whitespace-only caption into
`none` and otherwise keeps the trimmed caption, trims each tag and drops
tags that are empty after trimming (each surviving tag is the trim of a
single input tag, with no splitting), passes `shot_date` through unchanged,
and on the spec's reference input `title "  Dawn  "`, `caption "   "`,
`tags [" a ", "", " b,b "]` produces `title "Dawn"`, `caption none`,
`tags ["a", "b,b"]`. -/
theorem cleanMetadata_normalizes (m : PhotoMetadataInput) :
    (cleanMetadata m).title = jsTrim m.title ∧
    trimmedShape (cleanMetadata m).title ∧
    ((cleanMetadata m).caption = none ↔ jsTrim m.caption = "") ∧
    (∀ c, (cleanMetadata m).caption = some c →
      c = jsTrim m.caption ∧ c ≠ "" ∧ trimmedShape c) ∧
    (∀ t ∈ (cleanMetadata m).tags, t ≠ "" ∧ trimmedShape t ∧ ∃ u ∈ m.tags, t = jsTrim u) ∧
    (∀ u ∈ m.tags, jsTrim u ≠ "" → jsTrim u ∈ (cleanMetadata m).tags) ∧
    (cleanMetadata m).shot_date = m.shot_date ∧
    cleanMetadata ⟨"  Dawn  ", "   ", [" a ", "", " b,b "], 3⟩ =
      ⟨"Dawn", none, ["a", "b,b"], 3⟩ := by
  refine ⟨rfl, jsTrim_trimmedShape m.title, ?_, ?_, ?_, ?_, rfl, by decide⟩
  · by_cases h : jsTrim m.caption = "" <;> simp [cleanMetadata, h]
  · intro c hc
    by_cases h : jsTrim m.caption = "" <;> simp [cleanMetadata, h] at hc
    exact ⟨hc.symm, hc ▸ h, hc ▸ jsTrim_trimmedShape m.caption⟩
  · intro t ht
    simp only [cleanMetadata, List.mem_filter, List.mem_map, decide_eq_true_eq] at ht
    obtain ⟨⟨u, hu, hut⟩, hne⟩ := ht
    exact ⟨hne, hut ▸ jsTrim_trimmedShape u, u, hu, hut.symm⟩
  · intro u hu hne
    simp only [cleanMetadata, List.mem_filter, List.mem_map, decide_eq_true_eq]
    exact ⟨⟨u, hu, rfl⟩, hne⟩

/-- Witness for C1 at a concrete input: the tag `" a "` survives
normalization as `"a"`. -/
theorem cleanMetadata_normalizes_w :
    " a " ∈ ([" a ", "", " b,b "] : List String) ∧ jsTrim " a " ≠ "" ∧
      jsTrim " a " ∈ (cleanMetadata ⟨"  Dawn  ", "   ", [" a ", "", " b,b "], 3⟩).tags :=
  ⟨by decide, by decide,
    (cleanMetadata_normalizes ⟨"  Dawn  ", "   ", [" a ", "", " b,b "], 3⟩).2.2.2.2.2.1
      " a " (by decide) (by decide)⟩

/-! ### C2: filename sanitization and storage-key safety -/

lemma sanitizeAux_allowed (l : List Char) : ∀ (flag : Bool), ∀ c ∈ sanitizeAux flag l,
    allowedChar c = true := by
  induction l with
  | nil =>
    intro flag c hc
    simp [sanitizeAux] at hc
  | cons a as ih =>
    intro flag c hc
    simp only [sanitizeAux] at hc
    by_cases ha : allowedChar a = true
    · rw [if_pos ha] at hc
      rcases List.mem_cons.mp hc with h | h
      · exact h ▸ ha
      · exact ih false c h
    · rw [if_neg ha] at hc
      cases flag with
      | true =>
        simp only [if_pos] at hc
        exact ih true c hc
      | false =>
        simp only [Bool.false_eq_true, if_neg] at hc
        rcases List.mem_cons.mp hc with h | h
        · cases h
          decide
        · exact ih true c h

/-- C2 as stated is false: the regex `[^a-z0-9.\-_]+` matches a whole run,
so the two consecutive disallowed characters of `"a  b"` are replaced by a
single hyphen, not by two. -/
theorem sanitizeFilename_run_counterexample :
    sanitizeFilename "a  b" = "a-b" ∧
    (sanitizeFilename "a  b").data.count '-' = 1 ∧
    sanitizeFilename "a  b" ≠ "a--b" := by decide

/-- C2 (amended): the sanitization step of create lowercases the filename
and replaces every maximal run of consecutive characters outside
`[a-z0-9.\-_]` with a single hyphen, so the sanitized output contains only
characters of that class, and — provided the timestamp and random token
render to characters of the class — every character of the generated
storage key `{ownerId}/{timestamp}-{token}-{sanitized}` is a character of
the owner id, the separating slash, or a safe character. -/
theorem sanitizeFilename_safeKey (fileName userId tsStr uuid : String)
    (hts : ∀ c ∈ tsStr.data, allowedChar c = true)
    (huu : ∀ c ∈ uuid.data, allowedChar c = true) :
    (∀ c ∈ (sanitizeFilename fileName).data, allowedChar c = true) ∧
    (∀ c ∈ (makeFilePath userId tsStr uuid fileName).data,
      c ∈ userId.data ∨ c = '/' ∨ allowedChar c = true) ∧
    sanitizeFilename "A  B" = "a-b" := by
  refine ⟨fun c hc => sanitizeAux_allowed _ false c hc, ?_, by decide⟩
  intro c hc
  simp only [makeFilePath, String.data_append, List.mem_append, or_assoc] at hc
  rcases hc with h | h | h | h | h | h | h
  · exact Or.inl h
  · exact Or.inr (Or.inl (by simpa using h))
  · exact Or.inr (Or.inr (hts c h))
  · have hEq : c = '-' := by simpa using h
    exact Or.inr (Or.inr (hEq ▸ by decide))
  · exact Or.inr (Or.inr (huu c h))
  · have hEq : c = '-' := by simpa using h
    exact Or.inr (Or.inr (hEq ▸ by decide))
  · exact Or.inr (Or.inr (sanitizeAux_allowed _ false c h))

/-- Witness for C2 (amended) at a concrete input: in the key generated for
owner `"user"`, timestamp `"1718"`, token `"ab-cd"` and filename
`"My Photo.JPG"`, the character `'m'` is safe. -/
theorem sanitizeFilename_safeKey_w :
    'm' ∈ (makeFilePath "user" "1718" "ab-cd" "My Photo.JPG").data ∧
      ('m' ∈ ("user" : String).data ∨ 'm' = '/' ∨ allowedChar 'm' = true) :=
  ⟨by decide,
    (sanitizeFilename_safeKey "My Photo.JPG" "user" "1718" "ab-cd"
        (by decide) (by decide)).2.1 'm' (by decide)⟩

/-! ### C5, C6, C7: the read queries -/

lemma photoKeyNe_symm : Symmetric photoKeyNe := by
  intro a c h
  unfold photoKeyNe at *
  exact fun he => h he.symm

lemma orderRows_pairwise_order (l : List PhotoRow) :
    (orderRows l).Pairwise photoOrder :=
  List.sorted_insertionSort photoOrder l

lemma orderRows_perm (l : List PhotoRow) : List.Perm (orderRows l) l :=
  List.perm_insertionSort photoOrder l

lemma orderRows_strict (l : List PhotoRow) (h : l.Pairwise photoKeyNe) :
    (orderRows l).Pairwise photoStrictDesc := by
  have hne : (orderRows l).Pairwise photoKeyNe :=
    ((orderRows_perm l).pairwise_iff (fun hab => photoKeyNe_symm hab)).mpr h
  have hcomb := (orderRows_pairwise_order l).and hne
  refine hcomb.imp ?_
  intro a c hac
  obtain ⟨ho, hn⟩ := hac
  unfold photoOrder at ho
  unfold photoKeyNe at hn
  unfold photoStrictDesc
  rcases ho with h1 | ⟨h2, h3⟩
  · exact Or.inl h1
  · right
    refine ⟨h2, ?_⟩
    have hcc : a.created_at ≠ c.created_at := by
      simp only [ne_eq, Prod.mk.injEq, not_and] at hn
      exact hn h2.symm
    omega

/-- C5: when the stored rows have pairwise-distinct (`shot_date`,
`created_at`) pairs, both `fetchPublicPhotos` (any range) and
`fetchAdminPhotos` (either mode) return rows sorted by `shot_date`
descending with ties broken by `created_at` descending — here strictly
descending in that lexicographic order. -/
theorem fetch_sorted (b : Backend) (f t : Nat) (mode : AdminMode)
    (h : b.rows.Pairwise photoKeyNe) :
    (fetchPublicPhotos b f t).Pairwise photoStrictDesc ∧
    (fetchAdminPhotos b mode).Pairwise photoStrictDesc := by
  constructor
  · have hs := orderRows_strict (b.rows.filter (fun r => r.deleted_at = none))
      (h.sublist (List.filter_sublist b.rows))
    exact hs.sublist ((List.take_sublist _ _).trans (List.drop_sublist _ _))
  · exact orderRows_strict _ (h.sublist (List.filter_sublist b.rows))

/-- Witness for C5 at the concrete backend `wBackend`. -/
theorem fetch_sorted_w :
    wBackend.rows.Pairwise photoKeyNe ∧
      (fetchPublicPhotos wBackend 0 8).Pairwise photoStrictDesc :=
  ⟨by decide, (fetch_sorted wBackend 0 8 .active (by decide)).1⟩

/-- C6: no row returned by `fetchPublicPhotos` has a non-null `deleted_at`,
no row returned by `fetchAdminPhotos 'trash'` has a null `deleted_at`, and
no row returned by `fetchAdminPhotos 'active'` has a non-null
`deleted_at`. -/
theorem fetch_visibility (b : Backend) (f t : Nat) :
    (∀ p ∈ fetchPublicPhotos b f t, p.deleted_at = none) ∧
    (∀ p ∈ fetchAdminPhotos b .trash, p.deleted_at ≠ none) ∧
    (∀ p ∈ fetchAdminPhotos b .active, p.deleted_at = none) := by
  refine ⟨?_, ?_, ?_⟩
  · intro p hp
    have h1 : p ∈ orderRows (b.rows.filter (fun r => r.deleted_at = none)) :=
      List.drop_subset _ _ (List.take_subset _ _ hp)
    have h2 := (orderRows_perm _).mem_iff.mp h1
    have := List.of_mem_filter h2
    simpa using this
  · intro p hp
    have h2 := (orderRows_perm _).mem_iff.mp hp
    have := List.of_mem_filter h2
    simpa using this
  · intro p hp
    have h2 := (orderRows_perm _).mem_iff.mp hp
    have := List.of_mem_filter h2
    simpa using this

/-- Witness for C6 at the concrete backend `wBackend`: the first public row
is active. -/
theorem fetch_visibility_w :
    (⟨2, "b", none, [], 5, "u/p2", 8, 8, none⟩ : PhotoRow) ∈ fetchPublicPhotos wBackend 0 8 ∧
      (⟨2, "b", none, [], 5, "u/p2", 8, 8, none⟩ : PhotoRow).deleted_at = none :=
  ⟨by decide, (fetch_visibility wBackend 0 8).1 _ (by decide)⟩

/-- C7: `listPublic` (offset/limit pagination over `fetchPublicPhotos`, as
issued by the caller) returns at most `limit` rows for any positive
`limit`; with exactly 9 active photos, offset 0 with limit 9 returns 9 rows
and offset 9 (page 1) with limit 9 returns the empty batch — the
shorter-than-limit batch being the exhaustion signal. -/
theorem listPublic_pagination (b : Backend) (offset limit : Nat) (hl : 0 < limit) :
    (listPublic b offset limit).length ≤ limit ∧
    ((b.rows.filter (fun r => r.deleted_at = none)).length = 9 →
      (listPublic b 0 9).length = 9 ∧ listPublic b 9 9 = []) := by
  constructor
  · unfold listPublic fetchPublicPhotos
    rw [List.length_take]
    have : offset + limit - 1 + 1 - offset = limit := by omega
    rw [this]
    exact Nat.min_le_left _ _
  · intro h9
    have hlen : (orderRows (b.rows.filter (fun r => r.deleted_at = none))).length = 9 :=
      (orderRows_perm _).length_eq.trans h9
    constructor
    · unfold listPublic fetchPublicPhotos
      rw [List.drop_zero, List.length_take, hlen]
      omega
    · unfold listPublic fetchPublicPhotos
      rw [List.drop_eq_nil_of_le (by rw [hlen]), List.take_nil]

/-- Witness for C7 at the concrete limit 9. -/
theorem listPublic_pagination_w :
    (0 : Nat) < 9 ∧ (listPublic wBackend 0 9).length ≤ 9 :=
  ⟨by decide, (listPublic_pagination wBackend 0 9 (by decide)).1⟩

/-! ### C3: create is compensating on partial failure -/

/-- C3: if the row insert of `uploadPhoto` fails after a successful object
upload (the compensating remove itself not faulted), the object at the
generated storage key is deleted — no object remains there and no row was
added — and the row-insert error is raised; if the upload itself fails, the
operation aborts with the upload error and the backend is untouched (no
row, no cleanup). -/
theorem uploadPhoto_compensates (b : Backend) (fileName : String)
    (metadata : PhotoMetadataInput) (userId tsStr uuid : String) :
    (b.uploadFails = false → b.insertFails = true → b.removeFailMsg = none →
      makeFilePath userId tsStr uuid fileName ∉ b.objects →
      ∃ b' : Backend,
        uploadPhoto b fileName metadata userId tsStr uuid = (b', .error "row insert failed") ∧
        makeFilePath userId tsStr uuid fileName ∉ b'.objects ∧
        b'.rows = b.rows) ∧
    (b.uploadFails = true →
      uploadPhoto b fileName metadata userId tsStr uuid =
        (b, .error "storage upload failed")) := by
  constructor
  · intro hup hins hrem hkey
    refine ⟨{ b with objects := b.objects }, ?_, ?_, rfl⟩
    · unfold uploadPhoto storageUpload insertPhoto storageRemove
      rw [hup, hins, hrem]
      simp only [Bool.false_eq_true, if_false, if_true]
      rw [if_neg hkey]
      simp only [List.mem_cons, true_or, if_pos, List.erase_cons_head]
    · simpa using hkey
  · intro hup
    unfold uploadPhoto storageUpload
    rw [hup]
    simp

/-- Witness for C3: at `wBackend` with a faulted row insert, the uploaded
object is removed again. -/
theorem uploadPhoto_compensates_w :
    ({ wBackend with insertFails := true } : Backend).uploadFails = false ∧
    ({ wBackend with insertFails := true } : Backend).insertFails = true ∧
    ({ wBackend with insertFails := true } : Backend).removeFailMsg = none ∧
    makeFilePath "u" "17" "ab" "x.jpg" ∉ ({ wBackend with insertFails := true } : Backend).objects ∧
    ∃ b' : Backend,
      uploadPhoto { wBackend with insertFails := true } "x.jpg" ⟨"t", "", [], 1⟩ "u" "17" "ab" =
        (b', .error "row insert failed") ∧
      makeFilePath "u" "17" "ab" "x.jpg" ∉ b'.objects ∧
      b'.rows = ({ wBackend with insertFails := true } : Backend).rows :=
  ⟨rfl, rfl, rfl, by decide,
    (uploadPhoto_compensates { wBackend with insertFails := true } "x.jpg" ⟨"t", "", [], 1⟩
        "u" "17" "ab").1 rfl rfl rfl (by decide)⟩

/-! ### C4: permanent delete, not-found tolerance, retryability -/

/-- C4: `permanentlyDeletePhoto` first attempts the object removal: a
storage failure matching the not-found test is treated as success and the
operation proceeds to the row delete; any other storage failure is raised
with the backend unchanged (the row delete is never attempted); the row
delete's own failure is raised as-is. Consequently a retry after a partial
success (object already removed, row delete faulted on the first call)
does not raise in the object-removal phase and completes. -/
theorem permanentlyDeletePhoto_phases (b : Backend) (photo : PhotoRow) (msg : String) :
    (b.removeFailMsg = some msg → testNotFound msg = false →
      permanentlyDeletePhoto b photo = (b, .error msg)) ∧
    (b.removeFailMsg = some msg → testNotFound msg = true →
      permanentlyDeletePhoto b photo = rowDeletePhase b photo.id) ∧
    (b.removeFailMsg = none → photo.image_path ∈ b.objects → b.objects.Nodup →
      b.rowDeleteFails = true →
      (permanentlyDeletePhoto b photo).2 = .error "row delete failed" ∧
      (permanentlyDeletePhoto { (permanentlyDeletePhoto b photo).1 with rowDeleteFails := false }
          photo).2 = .ok ()) := by
  refine ⟨?_, ?_, ?_⟩
  · intro hrem hnf
    unfold permanentlyDeletePhoto storageRemove
    rw [hrem]
    simp [hnf]
  · intro hrem hnf
    unfold permanentlyDeletePhoto storageRemove
    rw [hrem]
    simp [hnf]
  · intro hrem hmem hnd hfail
    have h1 : permanentlyDeletePhoto b photo =
        ({ b with objects := b.objects.erase photo.image_path }, .error "row delete failed") := by
      unfold permanentlyDeletePhoto storageRemove rowDeletePhase
      rw [hrem]
      rw [if_pos hmem]
      simp only [hfail, if_pos]
    refine ⟨by rw [h1], ?_⟩
    rw [h1]
    have hnot : photo.image_path ∉ b.objects.erase photo.image_path := by
      intro hin
      exact ((List.Nodup.mem_erase_iff hnd).mp hin).1 rfl
    unfold permanentlyDeletePhoto storageRemove rowDeletePhase
    simp only [hrem]
    rw [if_neg hnot]
    have htest : testNotFound "Object not found" = true := by decide
    simp [htest]

/-- Witness for C4: retrying a partially-failed permanent delete at
`wBackend` succeeds on the second call. -/
theorem permanentlyDeletePhoto_phases_w :
    ({ wBackend with rowDeleteFails := true } : Backend).removeFailMsg = none ∧
    (⟨1, "a", none, [], 5, "u/p1", 10, 10, none⟩ : PhotoRow).image_path ∈
      ({ wBackend with rowDeleteFails := true } : Backend).objects ∧
    ({ wBackend with rowDeleteFails := true } : Backend).objects.Nodup ∧
    ((permanentlyDeletePhoto { wBackend with rowDeleteFails := true }
        ⟨1, "a", none, [], 5, "u/p1", 10, 10, none⟩).2 = .error "row delete failed" ∧
      (permanentlyDeletePhoto
          { (permanentlyDeletePhoto { wBackend with rowDeleteFails := true }
              ⟨1, "a", none, [], 5, "u/p1", 10, 10, none⟩).1 with rowDeleteFails := false }
          ⟨1, "a", none, [], 5, "u/p1", 10, 10, none⟩).2 = .ok ()) :=
  ⟨rfl, by decide, by decide,
    (permanentlyDeletePhoto_phases { wBackend with rowDeleteFails := true }
        ⟨1, "a", none, [], 5, "u/p1", 10, 10, none⟩ "").2.2 rfl (by decide) (by decide) rfl⟩

/-! ### C8, C9, C10: metadata update, soft delete / restore -/

lemma updatePhotoMetadata_fst_rows (b : Backend) (photoId : Nat) (m : PhotoMetadataInput) :
    (updatePhotoMetadata b photoId m).1.rows =
      applyMetaUpdate b.rows photoId (cleanMetadata m) b.now := by
  unfold updatePhotoMetadata
  cases hf : (applyMetaUpdate b.rows photoId (cleanMetadata m) b.now).filter
      (fun r => r.id = photoId) with
  | nil => rfl
  | cons a as =>
    cases as with
    | nil => rfl
    | cons a2 as2 => rfl

lemma updateMeta_filter_nil (b : Backend) (photoId : Nat) (m : PhotoMetadataInput)
    (h : ∀ r ∈ b.rows, r.id ≠ photoId) :
    (applyMetaUpdate b.rows photoId (cleanMetadata m) b.now).filter
      (fun r => r.id = photoId) = [] := by
  rw [List.filter_eq_nil_iff]
  intro a ha
  simp only [applyMetaUpdate, List.mem_map] at ha
  obtain ⟨r, hr, hfr⟩ := ha
  have hid : a.id = r.id := by
    rw [← hfr]
    by_cases hc : r.id = photoId <;> simp [hc]
  simp only [decide_eq_true_eq]
  rw [hid]
  exact h r hr

/-- C8: `updatePhotoMetadata` rewrites only the metadata columns: for every
row position, the updated table keeps the row's `id`, `image_path`,
`deleted_at` and `created_at` (only `title`, `caption`, `tags`,
`shot_date` — and the trigger-managed `updated_at` — can change), and when
no row has the targeted id the call raises an error. -/
theorem updatePhotoMetadata_frame (b : Backend) (photoId : Nat) (m : PhotoMetadataInput) :
    ((updatePhotoMetadata b photoId m).1.rows.length = b.rows.length) ∧
    (∀ i : Nat, ∀ r r' : PhotoRow, b.rows[i]? = some r →
      (updatePhotoMetadata b photoId m).1.rows[i]? = some r' →
      r'.id = r.id ∧ r'.image_path = r.image_path ∧ r'.deleted_at = r.deleted_at ∧
        r'.created_at = r.created_at) ∧
    ((∀ r ∈ b.rows, r.id ≠ photoId) → ∃ e, (updatePhotoMetadata b photoId m).2 = .error e) := by
  refine ⟨?_, ?_, ?_⟩
  · rw [updatePhotoMetadata_fst_rows]
    simp [applyMetaUpdate]
  · intro i r r' hr hr'
    rw [updatePhotoMetadata_fst_rows] at hr'
    unfold applyMetaUpdate at hr'
    rw [List.getElem?_map, hr] at hr'
    simp only [Option.map_some', Option.some.injEq] at hr'
    rw [← hr']
    by_cases hc : r.id = photoId <;> simp [hc]
  · intro hno
    refine ⟨"Cannot coerce the result to a single JSON object", ?_⟩
    unfold updatePhotoMetadata
    rw [updateMeta_filter_nil b photoId m hno]

/-- Witness for C8: updating a non-existent id at `wBackend` errors. -/
theorem updatePhotoMetadata_frame_w :
    (∀ r ∈ wBackend.rows, r.id ≠ 99) ∧
      ∃ e, (updatePhotoMetadata wBackend 99 ⟨"t", "", [], 1⟩).2 = .error e :=
  ⟨by decide, (updatePhotoMetadata_frame wBackend 99 ⟨"t", "", [], 1⟩).2.2 (by decide)⟩

/-- C9 fails as stated: `wBackend`'s row with id 3 exists but is already
trashed (`deleted_at = some 4`); after `softDeletePhoto 3` then
`restorePhoto 3` its `deleted_at` is `none` — a field other than
`updated_at` changed, so the row is not bit-identical to before. -/
theorem softDelete_restore_cex :
    wBackend.rows[2]?.map PhotoRow.id = some 3 ∧
    wBackend.rows[2]?.map PhotoRow.deleted_at = some (some 4) ∧
    (restorePhoto (softDeletePhoto wBackend 3).1 3).1.rows[2]?.map PhotoRow.deleted_at =
      some none := by decide

/-- C9 (amended): for every photo row that is active (`deleted_at = none`)
before the calls, `softDeletePhoto id` followed by `restorePhoto id`
leaves the row bit-identical except possibly `updated_at`: both operations
write only `deleted_at` (plus the trigger-managed `updated_at`), restore
sets `deleted_at` back to null, and rows with other ids are untouched. -/
theorem softDelete_restore_roundtrip (b : Backend) (photoId : Nat) :
    ((restorePhoto (softDeletePhoto b photoId).1 photoId).1.rows.length = b.rows.length) ∧
    (∀ i : Nat, ∀ r r' : PhotoRow, b.rows[i]? = some r →
      (restorePhoto (softDeletePhoto b photoId).1 photoId).1.rows[i]? = some r' →
      r'.id = r.id ∧ r'.title = r.title ∧ r'.caption = r.caption ∧ r'.tags = r.tags ∧
        r'.shot_date = r.shot_date ∧ r'.image_path = r.image_path ∧
        r'.created_at = r.created_at ∧
        (r.id = photoId → r.deleted_at = none → r'.deleted_at = r.deleted_at) ∧
        (r.id ≠ photoId → r'.deleted_at = r.deleted_at ∧ r'.updated_at = r.updated_at)) := by
  constructor
  · simp [restorePhoto, softDeletePhoto]
  · intro i r r' hr hr'
    simp only [restorePhoto, softDeletePhoto, List.getElem?_map, hr, Option.map_some',
      Option.some.injEq] at hr'
    rw [← hr']
    by_cases hc : r.id = photoId
    · simp [hc]
      exact fun h => h.symm
    · simp [hc]

/-- Witness for C9 (amended): the active row with id 1 of `wBackend` is
restored to its original `deleted_at` after the round trip. -/
theorem softDelete_restore_roundtrip_w :
    wBackend.rows[0]? = some ⟨1, "a", none, [], 5, "u/p1", 10, 10, none⟩ ∧
    (restorePhoto (softDeletePhoto wBackend 1).1 1).1.rows[0]? =
      some ⟨1, "a", none, [], 5, "u/p1", 10, 20, none⟩ ∧
    ((⟨1, "a", none, [], 5, "u/p1", 10, 20, none⟩ : PhotoRow).id =
        (⟨1, "a", none, [], 5, "u/p1", 10, 10, none⟩ : PhotoRow).id ∧
      (⟨1, "a", none, [], 5, "u/p1", 10, 20, none⟩ : PhotoRow).title =
        (⟨1, "a", none, [], 5, "u/p1", 10, 10, none⟩ : PhotoRow).title ∧
      (⟨1, "a", none, [], 5, "u/p1", 10, 20, none⟩ : PhotoRow).caption =
        (⟨1, "a", none, [], 5, "u/p1", 10, 10, none⟩ : PhotoRow).caption ∧
      (⟨1, "a", none, [], 5, "u/p1", 10, 20, none⟩ : PhotoRow).tags =
        (⟨1, "a", none, [], 5, "u/p1", 10, 10, none⟩ : PhotoRow).tags ∧
      (⟨1, "a", none, [], 5, "u/p1", 10, 20, none⟩ : PhotoRow).shot_date =
        (⟨1, "a", none, [], 5, "u/p1", 10, 10, none⟩ : PhotoRow).shot_date ∧
      (⟨1, "a", none, [], 5, "u/p1", 10, 20, none⟩ : PhotoRow).image_path =
        (⟨1, "a", none, [], 5, "u/p1", 10, 10, none⟩ : PhotoRow).image_path ∧
      (⟨1, "a", none, [], 5, "u/p1", 10, 20, none⟩ : PhotoRow).created_at =
        (⟨1, "a", none, [], 5, "u/p1", 10, 10, none⟩ : PhotoRow).created_at ∧
      ((⟨1, "a", none, [], 5, "u/p1", 10, 10, none⟩ : PhotoRow).id = 1 →
        (⟨1, "a", none, [], 5, "u/p1", 10, 10, none⟩ : PhotoRow).deleted_at = none →
        (⟨1, "a", none, [], 5, "u/p1", 10, 20, none⟩ : PhotoRow).deleted_at =
          (⟨1, "a", none, [], 5, "u/p1", 10, 10, none⟩ : PhotoRow).deleted_at) ∧
      ((⟨1, "a", none, [], 5, "u/p1", 10, 10, none⟩ : PhotoRow).id ≠ 1 →
        (⟨1, "a", none, [], 5, "u/p1", 10, 20, none⟩ : PhotoRow).deleted_at =
          (⟨1, "a", none, [], 5, "u/p1", 10, 10, none⟩ : PhotoRow).deleted_at ∧
        (⟨1, "a", none, [], 5, "u/p1", 10, 20, none⟩ : PhotoRow).updated_at =
          (⟨1, "a", none, [], 5, "u/p1", 10, 10, none⟩ : PhotoRow).updated_at)) :=
  ⟨by decide, by decide,
    (softDelete_restore_roundtrip wBackend 1).2 0 _ _ (by decide) (by decide)⟩

lemma map_if_no_match (rows : List PhotoRow) (photoId : Nat) (f : PhotoRow → PhotoRow)
    (h : ∀ r ∈ rows, r.id ≠ photoId) :
    rows.map (fun r => if r.id = photoId then f r else r) = rows := by
  induction rows with
  | nil => rfl
  | cons a as ih =>
    simp only [List.map_cons]
    rw [if_neg (h a (List.mem_cons_self a as))]
    rw [ih (fun r hr => h r (List.mem_cons_of_mem a hr))]

/-- C10: when no row has the targeted id, `softDeletePhoto` and
`restorePhoto` complete without error (and change nothing), while
`updatePhotoMetadata` raises. -/
theorem zeroRow_update_behaviour (b : Backend) (photoId : Nat) (m : PhotoMetadataInput)
    (h : ∀ r ∈ b.rows, r.id ≠ photoId) :
    softDeletePhoto b photoId = (b, .ok ()) ∧
    restorePhoto b photoId = (b, .ok ()) ∧
    ∃ e, (updatePhotoMetadata b photoId m).2 = .error e := by
  refine ⟨?_, ?_, ?_⟩
  · unfold softDeletePhoto
    rw [map_if_no_match b.rows photoId _ h]
  · unfold restorePhoto
    rw [map_if_no_match b.rows photoId _ h]
  · refine ⟨"Cannot coerce the result to a single JSON object", ?_⟩
    unfold updatePhotoMetadata
    rw [updateMeta_filter_nil b photoId m h]

/-- Witness for C10: id 42 matches no row of `wBackend`. -/
theorem zeroRow_update_behaviour_w :
    (∀ r ∈ wBackend.rows, r.id ≠ 42) ∧
      softDeletePhoto wBackend 42 = (wBackend, .ok ()) :=
  ⟨by decide, (zeroRow_update_behaviour wBackend 42 ⟨"t", "", [], 1⟩ (by decide)).1⟩

end PhotoRepo
